import Mathlib

/-!
Verification of the Primer x402 Python SDK (`x402_python`).

The repository's checked-in source is the package facade
`sdk-python/x402_python/__init__.py`, which re-exports the public API from
the submodules `.signer`, `.payer`, `.payee` and `.utils`.  The facade is
embedded literally below.  The submodules themselves are not in the source
tree, so the protocol engine (client payment session, payee guard, replay
cache, parser, signer) is modelled from the specification; every such
definition carries a doc comment starting `Modelled from the spec:`.
-/

namespace X402

/-! ### The package facade (`__init__.py`), embedded literally -/

/-- The symbols imported at module top level from `.signer`
(line `from .signer import create_signer, Signer`). -/
def signerImports : List String := ["create_signer", "Signer"]

/-- The symbols imported at module top level from `.payer`. -/
def payerImports : List String :=
  ["x402_requests", "x402_httpx", "approve_token", "PaymentError", "X402Session"]

/-- The symbols imported at module top level from `.payee`. -/
def payeeImports : List String :=
  ["x402_flask", "x402_fastapi", "x402_protect", "SettlementError"]

/-- The symbols imported at module top level from `.utils`. -/
def utilsImports : List String :=
  ["NETWORKS", "BASE_NETWORKS", "DEFAULT_FACILITATOR", "NetworkConfig",
   "is_valid_address", "parse_payment_header"]

/-- All symbols imported at module top level of `x402_python/__init__.py`. -/
def importedSymbols : List String :=
  signerImports ++ payerImports ++ payeeImports ++ utilsImports

/-- The `__all__` list of `x402_python/__init__.py`, in source order. -/
def x402_all : List String :=
  ["create_signer",
   "Signer",
   "x402_requests",
   "x402_httpx",
   "approve_token",
   "PaymentError",
   "X402Session",
   "x402_flask",
   "x402_fastapi",
   "x402_protect",
   "SettlementError",
   "NETWORKS",
   "BASE_NETWORKS",
   "DEFAULT_FACILITATOR",
   "NetworkConfig",
   "is_valid_address",
   "parse_payment_header"]

/-! ### Data model

Addresses, network ids, assets, nonces and resource identifiers are
modelled as natural numbers (addresses are 160-bit integers on chain);
prices and timestamps are naturals (atomic units, Unix seconds). -/

/-- A payment authorization: the payload the client signs.
Fields follow the spec's data model: {from address, to address, value in
atomic units, valid-after, valid-before, nonce, network}. -/
structure PaymentAuthorization where
  fromAddr : Nat
  toAddr : Nat
  value : Nat
  validAfter : Nat
  validBefore : Nat
  nonce : Nat
  network : Nat
deriving DecidableEq, Repr

/-- A signature: an opaque byte sequence bound to a `PaymentAuthorization`. -/
structure Signature where
  bytes : List Nat
deriving DecidableEq, Repr

/-- A payment proof: {PaymentAuthorization, Signature}, carried in a single
request header. -/
structure PaymentProof where
  auth : PaymentAuthorization
  sig : Signature
deriving DecidableEq, Repr

/-- A parsed payment requirement from a 402 challenge: {resource, network,
asset, recipient, price in atomic units, valid-after, valid-before,
server-issued nonce}. -/
structure PaymentRequirement where
  resource : Nat
  network : Nat
  asset : Nat
  recipient : Nat
  price : Nat
  validAfter : Nat
  validBefore : Nat
  nonce : Nat
deriving DecidableEq, Repr

/-! ### Proof header encoding -/

/-- The field encoding of a `PaymentAuthorization`: its seven fields in
declaration order. -/
def encodeAuth (a : PaymentAuthorization) : List Nat :=
  [a.fromAddr, a.toAddr, a.value, a.validAfter, a.validBefore, a.nonce, a.network]

/-- Modelled from the spec: the proof-header encoder (`.utils` submodule is
not in the source tree).  The header carries a compact encoding of
{authorization fields, signature bytes}; the base64 text layer is a
bijection on symbol sequences and is modelled as the identity, so the
header value is the compact symbol sequence itself: the seven authorization
fields, then the signature length, then the signature bytes. -/
def encode_payment_header (p : PaymentProof) : List Nat :=
  encodeAuth p.auth ++ p.sig.bytes.length :: p.sig.bytes

/-- Modelled from the spec: the proof-header decoder `parse_payment_header`
(re-exported from the missing `.utils` submodule).  Reads the seven
authorization fields, the signature length, and exactly that many
signature bytes; anything else is rejected. -/
def parse_payment_header : List Nat → Option PaymentProof
  | f :: t :: v :: va :: vb :: n :: w :: len :: rest =>
    if rest.length = len then
      some ⟨⟨f, t, v, va, vb, n, w⟩, ⟨rest⟩⟩
    else
      none
  | _ => none

/-! ### PaymentRequirement parser -/

/-- A raw requirement record as decoded from a 402 challenge body, before
validation: each field may be absent, and the amount may be negative. -/
structure RawRequirement where
  resource : Option Nat
  network : Option Nat
  asset : Option Nat
  recipient : Option Nat
  amount : Option Int
  validAfter : Option Nat
  validBefore : Option Nat
  nonce : Option Nat
deriving DecidableEq, Repr

/-- The parser's failure mode. -/
inductive ChallengeError where
  | malformedChallenge
deriving DecidableEq, Repr

/-- Modelled from the spec: validation of a single raw requirement record
(the `PaymentRequirement` parser lives in the missing `.utils`/`.payer`
submodules).  Returns `none` when a required field is missing, when the
price is not a non-negative integer, or when valid-before ≤ valid-after. -/
def parseRequirement (r : RawRequirement) : Option PaymentRequirement :=
  match r with
  | ⟨some res, some net, some a, some rec, some amt, some va, some vb, some nn⟩ =>
    if amt < 0 then none
    else if vb ≤ va then none
    else some ⟨res, net, a, rec, amt.toNat, va, vb, nn⟩
  | _ => none

/-- Modelled from the spec: `parse(raw_challenge) -> set of
PaymentRequirement`, failing with `MalformedChallenge` when any record of
the challenge is invalid. -/
def parseChallenge : List RawRequirement → Except ChallengeError (List PaymentRequirement)
  | [] => .ok []
  | r :: rs =>
    match parseRequirement r, parseChallenge rs with
    | some pr, .ok prs => .ok (pr :: prs)
    | _, _ => .error .malformedChallenge

/-- The conditions under which a raw requirement record is malformed:
a required field is missing, the price is negative, or
valid-before ≤ valid-after. -/
def malformedRecord (r : RawRequirement) : Prop :=
  r.resource = none ∨ r.network = none ∨ r.asset = none ∨ r.recipient = none ∨
  r.amount = none ∨ r.validAfter = none ∨ r.validBefore = none ∨ r.nonce = none ∨
  (∃ a, r.amount = some a ∧ a < 0) ∨
  (∃ va vb, r.validAfter = some va ∧ r.validBefore = some vb ∧ vb ≤ va)

/-! ### Requirement selection -/

/-- Lexicographic comparison of lists of naturals: `natLex as bs` holds when
`as` is (weakly) lexicographically before `bs`. -/
def natLex : List Nat → List Nat → Bool
  | [], _ => true
  | _ :: _, [] => false
  | a :: as, b :: bs => if a < b then true else if a = b then natLex as bs else false

/-- The preference rank of a requirement for a signer configured for
network `net`: 0 when the requirement is on the signer's network,
1 otherwise. -/
def netRank (net : Nat) (r : PaymentRequirement) : Nat :=
  if r.network = net then 0 else 1

/-- The selection key of a requirement for a signer configured for network
`net`: requirements on the signer's network rank first, then smaller price,
then lower network id; the remaining fields break any residual tie so that
the key order is total and the selection is a function of the set. -/
def reqKey (net : Nat) (r : PaymentRequirement) : List Nat :=
  [netRank net r, r.price, r.network,
   r.resource, r.asset, r.recipient, r.validAfter, r.validBefore, r.nonce]

/-- The better of two requirements under the selection key order
(the left one on a tie, though the key order has no ties on distinct
requirements). -/
def betterReq (net : Nat) (a b : PaymentRequirement) : PaymentRequirement :=
  if natLex (reqKey net a) (reqKey net b) then a else b

/-- Modelled from the spec: the client's selection policy over the parsed
requirements (implemented in the missing `.payer` submodule): prefer the
network the signer is configured for, then the cheapest by atomic-unit
price, tie-broken by lowest network id. -/
def selectRequirement (net : Nat) : List PaymentRequirement → Option PaymentRequirement
  | [] => none
  | r :: rs => some (rs.foldl (betterReq net) r)

/-! ### Signer -/

/-- A signer: configured network, own address, and optional key material. -/
structure Signer where
  network : Nat
  address : Nat
  key : Option Nat
deriving DecidableEq, Repr

/-- The signer's failure mode. -/
inductive SigningError where
  | signingError
deriving DecidableEq, Repr

instance : Inhabited SigningError := ⟨.signingError⟩

/-- Modelled from the spec: `sign(authorization) -> Signature` (the
`.signer` submodule is not in the source tree).  Deterministic in the key
and the payload; fails when key material is absent or the authorization's
from-address does not match the signer's own address.  The typed-data
digest is modelled as the key followed by the authorization's field
encoding, which binds value, time window and nonce into the signature. -/
def Signer.sign (s : Signer) (a : PaymentAuthorization) : Except SigningError Signature :=
  match s.key with
  | none => .error .signingError
  | some k =>
    if a.fromAddr = s.address then .ok ⟨k :: encodeAuth a⟩
    else .error .signingError

/-! ### Client payment session -/

/-- An HTTP request: method, url, headers (name, value symbols), body. -/
structure HttpRequest where
  method : Nat
  url : Nat
  headers : List (Nat × List Nat)
  body : List Nat
deriving DecidableEq, Repr

/-- An HTTP response: status code, and the challenge records carried by the
body when the status is 402. -/
structure HttpResponse where
  status : Nat
  challenge : List RawRequirement
deriving DecidableEq, Repr

/-- The header name designated for the payment proof. -/
def proofHeaderName : Nat := 402

/-- Attach the encoded payment proof to the original request as the
designated proof header; method, url, body and other headers unchanged. -/
def attachProofHeader (req : HttpRequest) (p : PaymentProof) : HttpRequest :=
  { req with headers := (proofHeaderName, encode_payment_header p) :: req.headers }

/-- Client-side terminal failures. -/
inductive PaymentErrorKind where
  | unsupported
  | signingFailed
  | rejectedAfterPayment
  | timeout
deriving DecidableEq, Repr

/-- The outcome of a client payment session. -/
inductive SessionResult where
  | succeeded (resp : HttpResponse)
  | malformedChallenge
  | failed (e : PaymentErrorKind)
deriving DecidableEq, Repr

/-- Modelled from the spec: build the `PaymentAuthorization` for a chosen
requirement (done in the `Signing` state of the missing `.payer` session):
value, recipient, network and validity window exactly mirror the
requirement; the nonce is the fresh random nonce obtained for this
authorization; the from-address is the signer's. -/
def buildAuthorization (s : Signer) (r : PaymentRequirement) (freshNonce : Nat) :
    PaymentAuthorization :=
  { fromAddr := s.address
    toAddr := r.recipient
    value := r.price
    validAfter := r.validAfter
    validBefore := r.validBefore
    nonce := freshNonce
    network := r.network }

/-- Modelled from the spec: the client payment session state machine
(`X402Session` of the missing `.payer` submodule), as a function of the
transport `send`.  Returns the terminal result together with the list of
requests actually sent, in order.  Idle: send the original request; on a
non-402 response, succeed with it.  On 402: parse the challenge (abort on
`MalformedChallenge`), select a requirement (fail `Unsupported` when none
on the signer's network), build and sign the authorization (fail
`SigningFailed` on signing failure), attach the proof header and resend
exactly once; a second 402 fails with `RejectedAfterPayment`, any other
status succeeds with that response. -/
def runSession (s : Signer) (freshNonce : Nat) (send : HttpRequest → HttpResponse)
    (req : HttpRequest) : SessionResult × List HttpRequest :=
  let resp := send req
  if resp.status ≠ 402 then (.succeeded resp, [req])
  else
    match parseChallenge resp.challenge with
    | .error _ => (.malformedChallenge, [req])
    | .ok reqs =>
      match selectRequirement s.network reqs with
      | none => (.failed .unsupported, [req])
      | some r =>
        if r.network ≠ s.network then (.failed .unsupported, [req])
        else
          let auth := buildAuthorization s r freshNonce
          match s.sign auth with
          | .error _ => (.failed .signingFailed, [req])
          | .ok sg =>
            let req2 := attachProofHeader req ⟨auth, sg⟩
            let resp2 := send req2
            if resp2.status = 402 then (.failed .rejectedAfterPayment, [req, req2])
            else (.succeeded resp2, [req, req2])

/-! ### Payee guard -/

/-- Guard configuration for a protected resource: declared price, recipient
address, the supported networks, and the bound on verify retries. -/
structure GuardConfig where
  price : Nat
  recipient : Nat
  supportedNetworks : List Nat
  verifyRetries : Nat
deriving Repr

/-- A facilitator `verify` response: valid, definitively invalid with a
reason, or a transport failure. -/
inductive VerifyResp where
  | valid
  | invalid (reason : String)
  | transport
deriving DecidableEq, Repr

/-- A call made to the facilitator. -/
inductive FacCall where
  | verifyCall
  | settleCall
deriving DecidableEq, Repr

/-- Server-side terminal failures. -/
inductive SettlementErrorKind where
  | verificationUnavailable
  | settlementFailed
  | timeout
deriving DecidableEq, Repr

/-- The outcome of one payee-guard evaluation: the protected handler ran
(payment settled), a 402 rejection with a reason, or a settlement error. -/
inductive GuardOutcome where
  | served
  | rejected402 (reason : String)
  | settlementError (k : SettlementErrorKind)
deriving DecidableEq, Repr

/-- One incoming request to the guard: the current time, the proof carried
by the proof header (if any), the facilitator's verify response for each
attempt, and whether the facilitator's settle succeeds. -/
structure GuardRequest where
  now : Nat
  proof : Option PaymentProof
  verifyResp : Nat → VerifyResp
  settleOk : Bool

/-- The replay cache: the set of consumed (network, nonce) pairs. -/
abbrev ReplayCache := List (Nat × Nat)

/-- Modelled from the spec: the facilitator `verify` call with bounded
retry on transport failure (`attempt` numbers the call, `fuel` bounds the
remaining attempts).  Returns the final response and the number of calls
made. -/
def verifyWithRetry (resp : Nat → VerifyResp) (attempt : Nat) : Nat → VerifyResp × Nat
  | 0 => (.transport, 0)
  | fuel + 1 =>
    match resp attempt with
    | .valid => (.valid, 1)
    | .invalid reason => (.invalid reason, 1)
    | .transport =>
      let (r, c) := verifyWithRetry resp (attempt + 1) fuel
      (r, c + 1)

/-- The guard's local checks, performed without any facilitator call:
value covers the price, recipient matches, network supported, and the
current time lies within the authorization's validity window. -/
def localOk (cfg : GuardConfig) (now : Nat) (p : PaymentProof) : Prop :=
  cfg.price ≤ p.auth.value ∧
  p.auth.toAddr = cfg.recipient ∧
  p.auth.network ∈ cfg.supportedNetworks ∧
  p.auth.validAfter ≤ now ∧ now ≤ p.auth.validBefore

instance (cfg : GuardConfig) (now : Nat) (p : PaymentProof) :
    Decidable (localOk cfg now p) := by
  unfold localOk
  infer_instance

/-- The replay key of a proof: its (network, authorization nonce) pair. -/
def proofPair (p : PaymentProof) : Nat × Nat := (p.auth.network, p.auth.nonce)

/-- Modelled from the spec: one evaluation of the payee guard
(`x402_protect` of the missing `.payee` submodule) against the current
replay cache.  Returns the outcome, the updated cache, and the list of
facilitator calls made.  Order per the spec: no proof → fresh 402;
local checks (value, recipient, network, validity window) with no
facilitator call on mismatch; replay check before any remote call;
facilitator verify with bounded retry; insert (network, nonce) into the
cache before settling; settle, keeping the cache entry even on failure;
only then serve. -/
def guardEval (cfg : GuardConfig) (cache : ReplayCache) (rq : GuardRequest) :
    GuardOutcome × ReplayCache × List FacCall :=
  match rq.proof with
  | none => (.rejected402 "payment_required", cache, [])
  | some p =>
    if p.auth.value < cfg.price then (.rejected402 "value_below_price", cache, [])
    else if p.auth.toAddr ≠ cfg.recipient then (.rejected402 "recipient_mismatch", cache, [])
    else if p.auth.network ∉ cfg.supportedNetworks then
      (.rejected402 "unsupported_network", cache, [])
    else if ¬ (p.auth.validAfter ≤ rq.now ∧ rq.now ≤ p.auth.validBefore) then
      (.rejected402 "outside_validity_window", cache, [])
    else if proofPair p ∈ cache then (.rejected402 "replay", cache, [])
    else
      match verifyWithRetry rq.verifyResp 0 (cfg.verifyRetries + 1) with
      | (.invalid reason, c) => (.rejected402 reason, cache, List.replicate c .verifyCall)
      | (.transport, c) =>
        (.settlementError .verificationUnavailable, cache, List.replicate c .verifyCall)
      | (.valid, c) =>
        let cache' := proofPair p :: cache
        if rq.settleOk then (.served, cache', List.replicate c .verifyCall ++ [.settleCall])
        else (.settlementError .settlementFailed, cache',
              List.replicate c .verifyCall ++ [.settleCall])

/-- Run the guard over a sequence of incoming requests, threading the
replay cache; returns the outcomes in order and the final cache. -/
def runGuard (cfg : GuardConfig) (cache : ReplayCache) :
    List GuardRequest → List GuardOutcome × ReplayCache
  | [] => ([], cache)
  | rq :: rest =>
    let step := guardEval cfg cache rq
    let next := runGuard cfg step.2.1 rest
    (step.1 :: next.1, next.2)

end X402

/-! ## Theorems -/

/-- Counterexample to C10: `__all__` in `x402_python/__init__.py` has 17
entries, not 16 as claimed. -/
theorem c10_all_count_counterexample :
    X402.x402_all.length = 17 ∧ X402.x402_all.length ≠ 16 := by
  decide

/-- C10 (amended: `__all__` has 17 entries, not 16): the export list is
consistent with the top-level imports — every string of `__all__` names an
imported symbol, every imported symbol appears in `__all__`, and `__all__`
has no duplicates. -/
theorem c10_all_consistent :
    X402.x402_all.length = 17 ∧
    (∀ s ∈ X402.x402_all, s ∈ X402.importedSymbols) ∧
    (∀ s ∈ X402.importedSymbols, s ∈ X402.x402_all) ∧
    X402.x402_all.Nodup := by
  decide

/-- C5: decoding the single-header encoding of a `PaymentProof` reproduces
the original `PaymentAuthorization` and `Signature` exactly. -/
theorem c5_header_round_trip (p : X402.PaymentProof) :
    X402.parse_payment_header (X402.encode_payment_header p) = some p := by
  obtain ⟨⟨f, t, v, va, vb, n, w⟩, ⟨bytes⟩⟩ := p
  simp [X402.encode_payment_header, X402.parse_payment_header, X402.encodeAuth]

/-- C3: the authorization the client payment session constructs for a
chosen requirement `r` has value = r.price, to = r.recipient,
network = r.network, and a validity window contained in r's. -/
theorem c3_authorization_mirrors_requirement (s : X402.Signer)
    (r : X402.PaymentRequirement) (freshNonce : Nat) :
    (X402.buildAuthorization s r freshNonce).value = r.price ∧
    (X402.buildAuthorization s r freshNonce).toAddr = r.recipient ∧
    (X402.buildAuthorization s r freshNonce).network = r.network ∧
    r.validAfter ≤ (X402.buildAuthorization s r freshNonce).validAfter ∧
    (X402.buildAuthorization s r freshNonce).validBefore ≤ r.validBefore := by
  refine ⟨rfl, rfl, rfl, le_refl _, le_refl _⟩

/-- C4: a proof whose authorization value is strictly below the configured
price is rejected locally: the guard returns `Rejected402`, leaves the
replay cache unchanged, and makes zero facilitator calls. -/
theorem c4_underpayment_rejected_locally (cfg : X402.GuardConfig)
    (cache : X402.ReplayCache) (rq : X402.GuardRequest) (p : X402.PaymentProof)
    (hp : rq.proof = some p) (hv : p.auth.value < cfg.price) :
    X402.guardEval cfg cache rq = (.rejected402 "value_below_price", cache, []) := by
  simp only [X402.guardEval, hp]
  rw [if_pos hv]

/-- Witness for C4 at a concrete configuration and proof. -/
theorem c4_underpayment_rejected_locally_witness :
    X402.guardEval ⟨100, 7, [1], 2⟩ []
      ⟨50, some ⟨⟨3, 7, 99, 0, 1000, 11, 1⟩, ⟨[4]⟩⟩, fun _ => .valid, true⟩ =
      (.rejected402 "value_below_price", [], []) :=
  c4_underpayment_rejected_locally ⟨100, 7, [1], 2⟩ []
    ⟨50, some ⟨⟨3, 7, 99, 0, 1000, 11, 1⟩, ⟨[4]⟩⟩, fun _ => .valid, true⟩
    ⟨⟨3, 7, 99, 0, 1000, 11, 1⟩, ⟨[4]⟩⟩ rfl (by decide)

/-- C8: when the facilitator settle call fails after a successful verify,
the (network, nonce) entry stays in the replay cache, the guard fails with
`SettlementError(SettlementFailed)`, and settle is called exactly once
(no automatic retry). -/
theorem c8_settle_failure_keeps_nonce (cfg : X402.GuardConfig)
    (cache : X402.ReplayCache) (rq : X402.GuardRequest) (p : X402.PaymentProof)
    (hp : rq.proof = some p) (hlo : X402.localOk cfg rq.now p)
    (hfresh : X402.proofPair p ∉ cache) (hver : rq.verifyResp 0 = .valid)
    (hset : rq.settleOk = false) :
    (X402.guardEval cfg cache rq).1 = .settlementError .settlementFailed ∧
    X402.proofPair p ∈ (X402.guardEval cfg cache rq).2.1 ∧
    (X402.guardEval cfg cache rq).2.2.count .settleCall = 1 := by
  obtain ⟨h1, h2, h3, h4, h5⟩ := hlo
  simp only [X402.guardEval, hp]
  rw [if_neg (by omega), if_neg (not_not_intro h2), if_neg (not_not_intro h3),
    if_neg (by push_neg; omega), if_neg hfresh]
  simp [X402.verifyWithRetry, hver, hset]

/-- Witness for C8 at a concrete configuration and proof. -/
theorem c8_settle_failure_keeps_nonce_witness :
    (X402.guardEval ⟨100, 7, [1], 2⟩ []
        ⟨50, some ⟨⟨3, 7, 100, 0, 1000, 11, 1⟩, ⟨[4]⟩⟩, fun _ => .valid, false⟩).1 =
      .settlementError .settlementFailed ∧
    X402.proofPair ⟨⟨3, 7, 100, 0, 1000, 11, 1⟩, ⟨[4]⟩⟩ ∈
      (X402.guardEval ⟨100, 7, [1], 2⟩ []
        ⟨50, some ⟨⟨3, 7, 100, 0, 1000, 11, 1⟩, ⟨[4]⟩⟩, fun _ => .valid, false⟩).2.1 ∧
    (X402.guardEval ⟨100, 7, [1], 2⟩ []
        ⟨50, some ⟨⟨3, 7, 100, 0, 1000, 11, 1⟩, ⟨[4]⟩⟩, fun _ => .valid, false⟩).2.2.count
      .settleCall = 1 :=
  c8_settle_failure_keeps_nonce ⟨100, 7, [1], 2⟩ []
    ⟨50, some ⟨⟨3, 7, 100, 0, 1000, 11, 1⟩, ⟨[4]⟩⟩, fun _ => .valid, false⟩
    ⟨⟨3, 7, 100, 0, 1000, 11, 1⟩, ⟨[4]⟩⟩ rfl (by constructor <;> simp) (by decide) rfl rfl

/-- A single raw record fails validation exactly when it is malformed:
a missing field, a negative price, or valid-before ≤ valid-after. -/
theorem parseRequirement_eq_none_iff (r : X402.RawRequirement) :
    X402.parseRequirement r = none ↔ X402.malformedRecord r := by
  obtain ⟨res, net, a, rec, amt, va, vb, nn⟩ := r
  cases res <;> cases net <;> cases a <;> cases rec <;> cases amt <;> cases va <;>
      cases vb <;> cases nn <;>
    simp [X402.parseRequirement, X402.malformedRecord]
  omega

/-- The challenge parser fails with `MalformedChallenge` exactly when some
record of the challenge is malformed. -/
theorem parseChallenge_error_iff (raws : List X402.RawRequirement) :
    X402.parseChallenge raws = .error .malformedChallenge ↔
      ∃ r ∈ raws, X402.malformedRecord r := by
  induction raws with
  | nil => simp [X402.parseChallenge]
  | cons r rs ih =>
    cases hr : X402.parseRequirement r with
    | none =>
      have hm : X402.malformedRecord r := (parseRequirement_eq_none_iff r).mp hr
      cases hc : X402.parseChallenge rs <;>
        simp [X402.parseChallenge, hr, hc, hm]
    | some pr =>
      have hm : ¬ X402.malformedRecord r := by
        intro hm
        rw [(parseRequirement_eq_none_iff r).mpr hm] at hr
        cases hr
      cases hc : X402.parseChallenge rs with
      | error e =>
        cases e
        have hrs := ih.mp hc
        simp [X402.parseChallenge, hr, hc]
        exact Or.inr hrs
      | ok prs =>
        have hrs : ¬ ∃ x ∈ rs, X402.malformedRecord x := fun hx => by
          rw [ih.mpr hx] at hc
          cases hc
        simp [X402.parseChallenge, hr, hc, hm]
        exact fun x hx hmx => hrs ⟨x, hx, hmx⟩

/-- C6: the parser returns `MalformedChallenge` (and no requirement set)
exactly when a required field is missing, the price is not a non-negative
integer, or valid-before ≤ valid-after; and on a malformed 402 challenge
the client session aborts after the original request, with no retry. -/
theorem c6_malformed_challenge_iff (raws : List X402.RawRequirement) :
    (X402.parseChallenge raws = .error .malformedChallenge ↔
      ∃ r ∈ raws, X402.malformedRecord r) ∧
    (∀ (s : X402.Signer) (freshNonce : Nat) (send : X402.HttpRequest → X402.HttpResponse)
        (req : X402.HttpRequest),
      (send req).status = 402 →
      X402.parseChallenge (send req).challenge = .error .malformedChallenge →
      X402.runSession s freshNonce send req = (.malformedChallenge, [req])) := by
  refine ⟨parseChallenge_error_iff raws, ?_⟩
  intro s freshNonce send req h402 herr
  simp [X402.runSession, h402, herr]

/-- Witness for C6: a record with all fields missing is malformed, and a
session receiving it as a 402 challenge aborts after one request. -/
theorem c6_malformed_challenge_iff_witness :
    (X402.parseChallenge [⟨none, none, none, none, none, none, none, none⟩] =
      .error .malformedChallenge) ∧
    X402.runSession ⟨1, 5, some 7⟩ 11
        (fun _ => ⟨402, [⟨none, none, none, none, none, none, none, none⟩]⟩)
        ⟨1, 2, [], []⟩ =
      (.malformedChallenge, [⟨1, 2, [], []⟩]) := by
  constructor
  · exact (c6_malformed_challenge_iff
      [⟨none, none, none, none, none, none, none, none⟩]).1.mpr
      ⟨⟨none, none, none, none, none, none, none, none⟩, by simp, Or.inl rfl⟩
  · exact (c6_malformed_challenge_iff
      [⟨none, none, none, none, none, none, none, none⟩]).2
      ⟨1, 5, some 7⟩ 11 _ ⟨1, 2, [], []⟩ rfl rfl

/-- C2: the session never sends more than the original request plus one
retry, the retried request is the original with the proof header attached,
and when a retry was sent: a 402 retried response ends the session in
`Failed(RejectedAfterPayment)`, any other retried response ends it
`Succeeded` with that response returned to the caller. -/
theorem c2_single_retry (s : X402.Signer) (freshNonce : Nat)
    (send : X402.HttpRequest → X402.HttpResponse) (req : X402.HttpRequest) :
    (X402.runSession s freshNonce send req).2.length ≤ 2 ∧
    (∀ req2, (X402.runSession s freshNonce send req).2 = [req, req2] →
      (∃ p : X402.PaymentProof, req2 = X402.attachProofHeader req p) ∧
      ((send req2).status = 402 →
        (X402.runSession s freshNonce send req).1 = .failed .rejectedAfterPayment) ∧
      ((send req2).status ≠ 402 →
        (X402.runSession s freshNonce send req).1 = .succeeded (send req2))) := by
  rcases hE : X402.runSession s freshNonce send req with ⟨res, trace⟩
  simp only [X402.runSession] at hE
  split at hE
  · rw [Prod.mk.injEq] at hE
    simp [← hE.1, ← hE.2]
  · split at hE
    · rw [Prod.mk.injEq] at hE
      simp [← hE.1, ← hE.2]
    · split at hE
      · rw [Prod.mk.injEq] at hE
        simp [← hE.1, ← hE.2]
      · split at hE
        · rw [Prod.mk.injEq] at hE
          simp [← hE.1, ← hE.2]
        · split at hE
          · rw [Prod.mk.injEq] at hE
            simp [← hE.1, ← hE.2]
          · split at hE <;> rw [Prod.mk.injEq] at hE <;>
              rcases hE with ⟨hres, htrace⟩ <;> subst hres <;> subst htrace <;>
              refine ⟨by simp, fun req2 heq => ?_⟩ <;>
              rw [List.cons.injEq] at heq <;>
              rcases heq with ⟨-, heq⟩ <;>
              rw [List.cons.injEq] at heq <;>
              rcases heq with ⟨heq, -⟩ <;> subst heq
            · rename_i hsig h402
              exact ⟨⟨_, rfl⟩, fun _ => rfl, fun hn => absurd h402 hn⟩
            · rename_i hsig h402
              exact ⟨⟨_, rfl⟩, fun h => absurd h h402, fun _ => rfl⟩

/-- Witness for C2: against a server that answers 402 to the retried
request as well, a concrete session ends in `Failed(RejectedAfterPayment)`
after exactly one retry. -/
theorem c2_single_retry_witness :
    (X402.runSession ⟨1, 5, some 7⟩ 11
        (fun r => if r.headers = [] then
            ⟨402, [⟨some 0, some 1, some 2, some 9, some 50, some 10, some 20, some 3⟩]⟩
          else ⟨402, []⟩)
        ⟨1, 2, [], []⟩).1 = .failed .rejectedAfterPayment :=
  ((c2_single_retry ⟨1, 5, some 7⟩ 11
      (fun r => if r.headers = [] then
          ⟨402, [⟨some 0, some 1, some 2, some 9, some 50, some 10, some 20, some 3⟩]⟩
        else ⟨402, []⟩)
      ⟨1, 2, [], []⟩).2
    (X402.attachProofHeader ⟨1, 2, [], []⟩
      ⟨⟨5, 9, 50, 10, 20, 11, 1⟩, ⟨[7, 5, 9, 50, 10, 20, 11, 1]⟩⟩)
    (by decide)).2.1 (by decide)

/-- C9: `Signer.sign` is a deterministic function of the key material and
the payload — two signers with the same key and address sign any payload
identically — and it fails with `SigningError` exactly when key material is
absent or the authorization's from-address differs from the signer's own
address. -/
theorem c9_sign_deterministic_and_failure (s₁ s₂ : X402.Signer)
    (a : X402.PaymentAuthorization) :
    (s₁.key = s₂.key → s₁.address = s₂.address → s₁.sign a = s₂.sign a) ∧
    ((∃ e, s₁.sign a = .error e) ↔ (s₁.key = none ∨ a.fromAddr ≠ s₁.address)) := by
  constructor
  · intro hkey haddr
    simp only [X402.Signer.sign, hkey, haddr]
  · match hk : s₁.key with
    | none => simp [X402.Signer.sign, hk]
    | some k =>
      by_cases hf : a.fromAddr = s₁.address <;> simp [X402.Signer.sign, hk, hf]

/-- Unfolding of `natLex` on two non-empty lists. -/
theorem natLex_cons (a b : Nat) (as bs : List Nat) :
    X402.natLex (a :: as) (b :: bs) = true ↔
      a < b ∨ (a = b ∧ X402.natLex as bs = true) := by
  simp only [X402.natLex]
  split_ifs with h1 h2 <;> simp_all

/-- `natLex` is reflexive. -/
theorem natLex_refl (as : List Nat) : X402.natLex as as = true := by
  induction as with
  | nil => rfl
  | cons a as ih => rw [natLex_cons]; exact Or.inr ⟨rfl, ih⟩

/-- `natLex` is total. -/
theorem natLex_total : ∀ as bs : List Nat,
    X402.natLex as bs = true ∨ X402.natLex bs as = true
  | [], _ => Or.inl rfl
  | _ :: _, [] => Or.inr rfl
  | a :: as, b :: bs => by
    rw [natLex_cons, natLex_cons]
    rcases Nat.lt_trichotomy a b with h | h | h
    · exact Or.inl (Or.inl h)
    · rcases natLex_total as bs with ht | ht
      · exact Or.inl (Or.inr ⟨h, ht⟩)
      · exact Or.inr (Or.inr ⟨h.symm, ht⟩)
    · exact Or.inr (Or.inl h)

/-- `natLex` is antisymmetric. -/
theorem natLex_antisymm : ∀ as bs : List Nat,
    X402.natLex as bs = true → X402.natLex bs as = true → as = bs
  | [], [], _, _ => rfl
  | [], _ :: _, _, h => by cases h
  | _ :: _, [], h, _ => by cases h
  | a :: as, b :: bs, h1, h2 => by
    rw [natLex_cons] at h1 h2
    rcases h1 with h1 | ⟨he1, ht1⟩ <;> rcases h2 with h2 | ⟨he2, ht2⟩
    · omega
    · omega
    · omega
    · rw [he1, natLex_antisymm as bs ht1 ht2]

/-- `natLex` is transitive. -/
theorem natLex_trans : ∀ as bs cs : List Nat,
    X402.natLex as bs = true → X402.natLex bs cs = true → X402.natLex as cs = true
  | [], _, _, _, _ => rfl
  | _ :: _, [], _, h, _ => by cases h
  | _ :: _, _ :: _, [], _, h => by cases h
  | a :: as, b :: bs, c :: cs, h1, h2 => by
    rw [natLex_cons] at h1 h2 ⊢
    rcases h1 with h1 | ⟨he1, ht1⟩ <;> rcases h2 with h2 | ⟨he2, ht2⟩
    · exact Or.inl (by omega)
    · exact Or.inl (by omega)
    · exact Or.inl (by omega)
    · exact Or.inr ⟨by omega, natLex_trans as bs cs ht1 ht2⟩

/-- The selection key determines the requirement. -/
theorem reqKey_inj (net : Nat) {r r' : X402.PaymentRequirement}
    (h : X402.reqKey net r = X402.reqKey net r') : r = r' := by
  obtain ⟨a1, a2, a3, a4, a5, a6, a7, a8⟩ := r
  obtain ⟨b1, b2, b3, b4, b5, b6, b7, b8⟩ := r'
  simp only [X402.reqKey, List.cons.injEq, and_true] at h
  simp only [X402.PaymentRequirement.mk.injEq]
  omega

/-- `betterReq` is lex-below its left argument. -/
theorem betterReq_le_left (net : Nat) (r b : X402.PaymentRequirement) :
    X402.natLex (X402.reqKey net (X402.betterReq net r b)) (X402.reqKey net r) = true := by
  unfold X402.betterReq
  split
  · exact natLex_refl _
  · rename_i h
    rcases natLex_total (X402.reqKey net r) (X402.reqKey net b) with ht | ht
    · exact absurd ht h
    · exact ht

/-- `betterReq` is lex-below its right argument. -/
theorem betterReq_le_right (net : Nat) (r b : X402.PaymentRequirement) :
    X402.natLex (X402.reqKey net (X402.betterReq net r b)) (X402.reqKey net b) = true := by
  unfold X402.betterReq
  split
  · assumption
  · exact natLex_refl _

/-- The fold computing the selection returns an element of the list. -/
theorem foldl_betterReq_mem (net : Nat) :
    ∀ (rs : List X402.PaymentRequirement) (r : X402.PaymentRequirement),
      rs.foldl (X402.betterReq net) r ∈ r :: rs
  | [], r => List.mem_singleton.mpr rfl
  | b :: rs, r => by
    simp only [List.foldl_cons]
    have hb : X402.betterReq net r b = r ∨ X402.betterReq net r b = b := by
      unfold X402.betterReq
      split
      · exact Or.inl rfl
      · exact Or.inr rfl
    rcases List.mem_cons.mp (foldl_betterReq_mem net rs (X402.betterReq net r b)) with h | h
    · rw [h]
      rcases hb with hb | hb <;> rw [hb] <;> simp
    · simp [h]

/-- The fold computing the selection is lex-minimal over the list. -/
theorem foldl_betterReq_le (net : Nat) :
    ∀ (rs : List X402.PaymentRequirement) (r x : X402.PaymentRequirement), x ∈ r :: rs →
      X402.natLex (X402.reqKey net (rs.foldl (X402.betterReq net) r))
        (X402.reqKey net x) = true
  | [], r, x, hx => by
    rw [List.mem_singleton.mp hx]
    exact natLex_refl _
  | b :: rs, r, x, hx => by
    simp only [List.foldl_cons]
    have hhead : ∀ y, X402.natLex (X402.reqKey net (X402.betterReq net r b))
        (X402.reqKey net y) = true →
        X402.natLex (X402.reqKey net (rs.foldl (X402.betterReq net) (X402.betterReq net r b)))
          (X402.reqKey net y) = true := fun y hy =>
      natLex_trans _ _ _
        (foldl_betterReq_le net rs (X402.betterReq net r b) _ (List.mem_cons_self _ _)) hy
    rcases List.mem_cons.mp hx with hx | hx
    · exact hx ▸ hhead r (betterReq_le_left net r b)
    · rcases List.mem_cons.mp hx with hx | hx
      · exact hx ▸ hhead b (betterReq_le_right net r b)
      · exact foldl_betterReq_le net rs (X402.betterReq net r b) x (List.mem_cons_of_mem _ hx)

/-- Characterization of the selection: it returns exactly the lex-minimal
element of the list under the selection key. -/
theorem selectRequirement_eq_some_iff (net : Nat) (l : List X402.PaymentRequirement)
    (m : X402.PaymentRequirement) :
    X402.selectRequirement net l = some m ↔
      m ∈ l ∧ ∀ x ∈ l, X402.natLex (X402.reqKey net m) (X402.reqKey net x) = true := by
  cases l with
  | nil => simp [X402.selectRequirement]
  | cons r rs =>
    constructor
    · intro h
      have heq : rs.foldl (X402.betterReq net) r = m := by
        simpa [X402.selectRequirement] using h
      subst heq
      exact ⟨foldl_betterReq_mem net rs r, fun x hx => foldl_betterReq_le net rs r x hx⟩
    · rintro ⟨hm, hmin⟩
      have hm' := foldl_betterReq_mem net rs r
      have h1 := hmin _ hm'
      have h2 := foldl_betterReq_le net rs r m hm
      have heq : rs.foldl (X402.betterReq net) r = m :=
        reqKey_inj net (natLex_antisymm _ _ h2 h1)
      simp [X402.selectRequirement, heq]

/-- The selection is invariant under permutation of the requirement list:
it is a function of the set of requirements. -/
theorem selectRequirement_perm (net : Nat) {l l' : List X402.PaymentRequirement}
    (hp : l.Perm l') :
    X402.selectRequirement net l = X402.selectRequirement net l' := by
  cases hl : X402.selectRequirement net l with
  | none =>
    have : l = [] := by
      cases l with
      | nil => rfl
      | cons r rs => simp [X402.selectRequirement] at hl
    subst this
    rw [← hp.nil_eq]
    rfl
  | some m =>
    obtain ⟨hm, hmin⟩ := (selectRequirement_eq_some_iff net l m).mp hl
    exact ((selectRequirement_eq_some_iff net l' m).mpr
      ⟨hp.mem_iff.mp hm, fun x hx => hmin x (hp.mem_iff.mpr hx)⟩).symm

/-- Clause extraction from lex-minimality of the selection key: lower
preference rank; on equal rank, lower price; on equal rank and price,
lower network id. -/
theorem reqKey_le_clauses (net : Nat) {r r' : X402.PaymentRequirement}
    (h : X402.natLex (X402.reqKey net r) (X402.reqKey net r') = true) :
    X402.netRank net r ≤ X402.netRank net r' ∧
    (X402.netRank net r = X402.netRank net r' → r.price ≤ r'.price) ∧
    (X402.netRank net r = X402.netRank net r' → r.price = r'.price →
      r.network ≤ r'.network) := by
  simp only [X402.reqKey] at h
  rw [natLex_cons] at h
  rcases h with h1 | ⟨he1, h⟩
  · exact ⟨by omega, fun hc => by omega, fun hc _ => by omega⟩
  rw [natLex_cons] at h
  rcases h with h2 | ⟨he2, h⟩
  · exact ⟨by omega, fun _ => by omega, fun _ hc => by omega⟩
  rw [natLex_cons] at h
  rcases h with h3 | ⟨he3, h⟩
  · exact ⟨by omega, fun _ => by omega, fun _ _ => by omega⟩
  · exact ⟨by omega, fun _ => by omega, fun _ _ => by omega⟩

/-- C7: for a non-empty requirement list the client's selection succeeds,
returns an element of the list, is invariant under permutation (a function
of the set and the signer's configured network), prefers requirements on
the signer's network, picks the smallest price among equally preferred
requirements, and breaks price ties by lowest network id. -/
theorem c7_selection_policy (net : Nat) (l : List X402.PaymentRequirement)
    (hne : l ≠ []) :
    ∃ r, X402.selectRequirement net l = some r ∧ r ∈ l ∧
      (∀ l', l.Perm l' → X402.selectRequirement net l' = some r) ∧
      (∀ r' ∈ l, X402.netRank net r ≤ X402.netRank net r') ∧
      (∀ r' ∈ l, X402.netRank net r = X402.netRank net r' → r.price ≤ r'.price) ∧
      (∀ r' ∈ l, X402.netRank net r = X402.netRank net r' → r.price = r'.price →
        r.network ≤ r'.network) := by
  obtain ⟨a, rs, rfl⟩ : ∃ a rs, l = a :: rs := by
    cases l with
    | nil => cases hne rfl
    | cons a rs => exact ⟨a, rs, rfl⟩
  have hsel : X402.selectRequirement net (a :: rs) =
      some (rs.foldl (X402.betterReq net) a) := rfl
  obtain ⟨hm, hmin⟩ := (selectRequirement_eq_some_iff net (a :: rs) _).mp hsel
  refine ⟨_, hsel, hm, fun l' hp => (selectRequirement_perm net hp) ▸ hsel,
    fun r' hr' => (reqKey_le_clauses net (hmin r' hr')).1,
    fun r' hr' => (reqKey_le_clauses net (hmin r' hr')).2.1,
    fun r' hr' => (reqKey_le_clauses net (hmin r' hr')).2.2⟩

/-- Witness for C7 at a concrete two-requirement challenge. -/
theorem c7_selection_policy_witness :
    ∃ r, X402.selectRequirement 1 [⟨0, 1, 2, 9, 80, 10, 20, 3⟩, ⟨0, 1, 2, 9, 50, 10, 20, 4⟩] =
        some r ∧
      r ∈ [⟨0, 1, 2, 9, 80, 10, 20, 3⟩, ⟨0, 1, 2, 9, 50, 10, 20, 4⟩] ∧
      (∀ l', List.Perm [⟨0, 1, 2, 9, 80, 10, 20, 3⟩, ⟨0, 1, 2, 9, 50, 10, 20, 4⟩] l' →
        X402.selectRequirement 1 l' = some r) ∧
      (∀ r' ∈ [⟨0, 1, 2, 9, 80, 10, 20, 3⟩, ⟨0, 1, 2, 9, 50, 10, 20, 4⟩],
        X402.netRank 1 r ≤ X402.netRank 1 r') ∧
      (∀ r' ∈ [⟨0, 1, 2, 9, 80, 10, 20, 3⟩, ⟨0, 1, 2, 9, 50, 10, 20, 4⟩],
        X402.netRank 1 r = X402.netRank 1 r' → r.price ≤ r'.price) ∧
      (∀ r' ∈ [⟨0, 1, 2, 9, 80, 10, 20, 3⟩, ⟨0, 1, 2, 9, 50, 10, 20, 4⟩],
        X402.netRank 1 r = X402.netRank 1 r' → r.price = r'.price →
          r.network ≤ r'.network) :=
  c7_selection_policy 1 [⟨0, 1, 2, 9, 80, 10, 20, 3⟩, ⟨0, 1, 2, 9, 50, 10, 20, 4⟩]
    (by decide)

/-- One guard evaluation never removes replay-cache entries. -/
theorem guardEval_cache_mono (cfg : X402.GuardConfig) (cache : X402.ReplayCache)
    (rq : X402.GuardRequest) : cache ⊆ (X402.guardEval cfg cache rq).2.1 := by
  rcases hE : X402.guardEval cfg cache rq with ⟨out, cache', calls⟩
  simp only [X402.guardEval] at hE
  repeat' split at hE
  all_goals rw [Prod.mk.injEq, Prod.mk.injEq] at hE
  all_goals rw [← hE.2.1]
  all_goals intro x hx
  all_goals simp [hx]

/-- A served evaluation leaves the proof's (network, nonce) pair in the
replay cache. -/
theorem guardEval_served_mem (cfg : X402.GuardConfig) (cache : X402.ReplayCache)
    (rq : X402.GuardRequest) (p : X402.PaymentProof) (hp : rq.proof = some p)
    (hs : (X402.guardEval cfg cache rq).1 = .served) :
    X402.proofPair p ∈ (X402.guardEval cfg cache rq).2.1 := by
  rcases hE : X402.guardEval cfg cache rq with ⟨out, cache', calls⟩
  rw [hE] at hs
  simp only at hs
  subst hs
  simp only [X402.guardEval, hp] at hE
  repeat' split at hE
  all_goals rw [Prod.mk.injEq, Prod.mk.injEq] at hE
  all_goals obtain ⟨h1, h2, -⟩ := hE
  all_goals first
    | (rw [← h2]; exact List.mem_cons_self _ _)
    | cases h1

/-- Evaluating any proof whose (network, nonce) pair is already in the
replay cache never serves, and when the proof passes the local checks the
rejection reason is "replay". -/
theorem guardEval_consumed_rejects (cfg : X402.GuardConfig) (cache : X402.ReplayCache)
    (rq : X402.GuardRequest) (q : X402.PaymentProof) (hq : rq.proof = some q)
    (hmem : X402.proofPair q ∈ cache) :
    (X402.guardEval cfg cache rq).1 ≠ .served ∧
    (X402.localOk cfg rq.now q →
      (X402.guardEval cfg cache rq).1 = .rejected402 "replay") := by
  simp only [X402.guardEval, hq]
  rw [if_pos hmem]
  split
  next h =>
    refine ⟨by simp, fun hlo => ?_⟩
    obtain ⟨l1, l2, l3, l4, l5⟩ := hlo
    omega
  next h1 =>
    split
    next h =>
      refine ⟨by simp, fun hlo => ?_⟩
      obtain ⟨l1, l2, l3, l4, l5⟩ := hlo
      exact absurd l2 h
    next h2 =>
      split
      next h =>
        refine ⟨by simp, fun hlo => ?_⟩
        obtain ⟨l1, l2, l3, l4, l5⟩ := hlo
        exact absurd l3 h
      next h3 =>
        split
        next h =>
          refine ⟨by simp, fun hlo => ?_⟩
          obtain ⟨l1, l2, l3, l4, l5⟩ := hlo
          exact absurd ⟨l4, l5⟩ h
        next h4 =>
          exact ⟨by simp, fun _ => rfl⟩

/-- Running the guard over a request sequence never removes cache entries. -/
theorem runGuard_cache_mono (cfg : X402.GuardConfig) :
    ∀ (rs : List X402.GuardRequest) (cache : X402.ReplayCache),
      cache ⊆ (X402.runGuard cfg cache rs).2
  | [], _ => fun _ hx => hx
  | rq :: rest, cache =>
    (guardEval_cache_mono cfg cache rq).trans
      (runGuard_cache_mono cfg rest (X402.guardEval cfg cache rq).2.1)

/-- If the k-th evaluation of a guard run served a proof, that proof's
(network, nonce) pair is in the final replay cache of the run. -/
theorem runGuard_served_mem (cfg : X402.GuardConfig) :
    ∀ (rs : List X402.GuardRequest) (cache : X402.ReplayCache) (k : Nat)
      (rqk : X402.GuardRequest) (p : X402.PaymentProof),
      rs[k]? = some rqk → rqk.proof = some p →
      (X402.runGuard cfg cache rs).1[k]? = some .served →
      X402.proofPair p ∈ (X402.runGuard cfg cache rs).2
  | [], _, k, _, _, hk, _, _ => by cases hk
  | rq :: rest, cache, 0, rqk, p, hk, hp, hs => by
    obtain rfl : rq = rqk := by simpa using hk
    have hs0 : (X402.guardEval cfg cache rq).1 = .served := by
      simpa [X402.runGuard] using hs
    exact runGuard_cache_mono cfg rest _
      (guardEval_served_mem cfg cache rq p hp hs0)
  | rq :: rest, cache, k + 1, rqk, p, hk, hp, hs => by
    have hk' : rest[k]? = some rqk := by simpa using hk
    have hs' : (X402.runGuard cfg (X402.guardEval cfg cache rq).2.1 rest).1[k]? =
        some .served := by
      simpa [X402.runGuard] using hs
    exact runGuard_served_mem cfg rest _ k rqk p hk' hp hs'

/-- C1 (amended: a later proof with an already-settled (network, nonce)
pair never settles, and the rejection reason is "replay" whenever that
proof also passes the local checks — a same-pair proof failing a local
check is rejected on the cheap local path with that check's reason
instead): once the k-th evaluation of a run settled a proof with pair
(W, N), a subsequent evaluation of any proof with the same pair does not
reach `Settled`; if it passes the local checks (price covered, recipient
matched, supported network, inside the validity window) it ends in
`Rejected402` with reason "replay".  In particular at most one evaluation
per (network, nonce) reaches the `Settled` outcome. -/
theorem c1_no_double_settle (cfg : X402.GuardConfig) (pre : List X402.GuardRequest)
    (k : Nat) (rqk rq : X402.GuardRequest) (p q : X402.PaymentProof)
    (hk : pre[k]? = some rqk) (hps : rqk.proof = some p)
    (hserved : (X402.runGuard cfg [] pre).1[k]? = some .served)
    (hq : rq.proof = some q) (hpair : X402.proofPair q = X402.proofPair p) :
    (X402.guardEval cfg (X402.runGuard cfg [] pre).2 rq).1 ≠ .served ∧
    (X402.localOk cfg rq.now q →
      (X402.guardEval cfg (X402.runGuard cfg [] pre).2 rq).1 =
        .rejected402 "replay") := by
  have hmem : X402.proofPair p ∈ (X402.runGuard cfg [] pre).2 :=
    runGuard_served_mem cfg pre [] k rqk p hk hps hserved
  exact guardEval_consumed_rejects cfg _ rq q hq (hpair ▸ hmem)

/-- Witness for C1: replaying the very proof settled by a first evaluation
is rejected with reason "replay". -/
theorem c1_no_double_settle_witness :
    (X402.guardEval ⟨100, 7, [1], 2⟩
        (X402.runGuard ⟨100, 7, [1], 2⟩ []
          [⟨50, some ⟨⟨3, 7, 100, 0, 1000, 11, 1⟩, ⟨[4]⟩⟩, fun _ => .valid, true⟩]).2
        ⟨60, some ⟨⟨3, 7, 100, 0, 1000, 11, 1⟩, ⟨[4]⟩⟩, fun _ => .valid, true⟩).1 =
      .rejected402 "replay" :=
  (c1_no_double_settle ⟨100, 7, [1], 2⟩
      [⟨50, some ⟨⟨3, 7, 100, 0, 1000, 11, 1⟩, ⟨[4]⟩⟩, fun _ => .valid, true⟩] 0
      ⟨50, some ⟨⟨3, 7, 100, 0, 1000, 11, 1⟩, ⟨[4]⟩⟩, fun _ => .valid, true⟩
      ⟨60, some ⟨⟨3, 7, 100, 0, 1000, 11, 1⟩, ⟨[4]⟩⟩, fun _ => .valid, true⟩
      ⟨⟨3, 7, 100, 0, 1000, 11, 1⟩, ⟨[4]⟩⟩ ⟨⟨3, 7, 100, 0, 1000, 11, 1⟩, ⟨[4]⟩⟩
      rfl rfl (by decide) rfl rfl).2 (by constructor <;> simp)

/-- Counterexample to C1 as stated: after a proof with pair (network 1,
nonce 11) settles, a later proof with the same pair, evaluated inside its
validity window but carrying a value below the configured price, is
rejected on the local path with reason "value_below_price", not "replay". -/
theorem c1_replay_reason_counterexample :
    (X402.runGuard ⟨100, 7, [1], 2⟩ []
        [⟨50, some ⟨⟨3, 7, 100, 0, 1000, 11, 1⟩, ⟨[4]⟩⟩, fun _ => .valid, true⟩,
         ⟨60, some ⟨⟨3, 7, 50, 0, 1000, 11, 1⟩, ⟨[5]⟩⟩, fun _ => .valid, true⟩]).1 =
      [.served, .rejected402 "value_below_price"] ∧
    X402.proofPair ⟨⟨3, 7, 50, 0, 1000, 11, 1⟩, ⟨[5]⟩⟩ =
      X402.proofPair ⟨⟨3, 7, 100, 0, 1000, 11, 1⟩, ⟨[4]⟩⟩ ∧
    ((⟨⟨3, 7, 50, 0, 1000, 11, 1⟩, ⟨[5]⟩⟩ : X402.PaymentProof).auth.validAfter ≤ 60 ∧
      60 ≤ (⟨⟨3, 7, 50, 0, 1000, 11, 1⟩, ⟨[5]⟩⟩ : X402.PaymentProof).auth.validBefore) ∧
    X402.GuardOutcome.rejected402 "value_below_price" ≠ .rejected402 "replay" := by
  refine ⟨by decide, rfl, by decide, by decide⟩

/-- Witness for C9 at a concrete signer and payload: a keyless signer
fails, and determinism holds at a concrete pair. -/
theorem c9_sign_deterministic_and_failure_witness :
    ∃ e, X402.Signer.sign ⟨1, 5, none⟩ ⟨5, 7, 100, 0, 1000, 11, 1⟩ = .error e :=
  (c9_sign_deterministic_and_failure ⟨1, 5, none⟩ ⟨1, 5, none⟩
    ⟨5, 7, 100, 0, 1000, 11, 1⟩).2.mpr (Or.inl rfl)
